import Mathlib

/-!
# Verification of the wldata pak-extraction pipeline

Shallow embedding of the core logic of `unpack_wl.py` and `paksort.py`:
archive-filename parsing and ordering (`PakFile`), path normalization
(`get_filename_mapping`'s per-filename rewriting), the listing-output
scanner, the extraction stream checker (`PakFile.extract`), and the
merge step (`normalize_pak_files` / `delete_empty_dirs`) over an explicit
filesystem model.

Strings are modelled as `List Char`; the specific regular expressions of the
source are compiled by hand into deterministic matching functions whose
comments record the backtracking analysis justifying them.  Paths handed to
filesystem operations are modelled pre-split on the path separator, and
subprocess output is modelled as the list of lines (without trailing
newlines) read from the external tool's stdout.
-/

namespace Wldata

/-! ## Small string utilities -/

/-- Python's `\w` character class on ASCII input: letters, digits, `_`. -/
def isWordChar (c : Char) : Bool := c.isAlphanum || c == '_'

/-- Strip the literal `lit` from the front of `s`, if present. -/
def dropLit (lit s : List Char) : Option (List Char) :=
  if lit.isPrefixOf s then some (s.drop lit.length) else none

/-- Index of the first occurrence of `lit` inside `s` (`re.search` start). -/
def findLit (lit : List Char) : List Char → Option Nat
  | [] => if lit.isEmpty then some 0 else none
  | c :: rest =>
      if lit.isPrefixOf (c :: rest) then some 0
      else (findLit lit rest).map (· + 1)

/-- Index of the last occurrence of `lit` inside `s` (greedy `.*` before a
literal backtracks to the rightmost occurrence). -/
def findLastLit (lit : List Char) : List Char → Option Nat
  | [] => if lit.isEmpty then some 0 else none
  | c :: rest =>
      match findLastLit lit rest with
      | some j => some (j + 1)
      | none => if lit.isPrefixOf (c :: rest) then some 0 else none

/-- Value of a digit string, as `int()` computes it. -/
def digitsVal (ds : List Char) : Nat :=
  ds.foldl (fun n c => n * 10 + (c.toNat - 48)) 0

/-! ## Archive filename parsing

`unpack_wl.py` line 182: `re_pak` is
`^(?P<dir_prefix>.*[/\\])?pakchunk(?P<datagroup>\d+)(?P<optional>optional)?-WindowsNoEditor(_(?P<patchnum>\d+)_P)?\.pak$`.
`paksort.py` line 32 uses the same grammar without the `dir_prefix` group.

Backtracking analysis: after the (optional) directory part, `\d+` is a
maximal digit run (any shorter match is followed by a digit, which can
satisfy neither the literal `optional` nor `-`); `(optional)?` matches
exactly when the literal follows (if it does, the group-absent alternative
immediately fails on `-` vs `o`); the patch group matches exactly when the
remainder is `_<digits>_P.pak` (group-absent requires `.`, which cannot
start with `_`).  The core pattern matches no `/` or `\` character, so with
the greedy `(.*[/\\])?` it matches iff the suffix after the last separator
matches the core. -/

/-- Parse `pakchunk<N>[optional]-WindowsNoEditor[_<P>_P].pak` into
`(datagroup, optional-flag, patch group)`. -/
def parsePakCore (s : List Char) : Option (Nat × Bool × Option Nat) :=
  match dropLit "pakchunk".toList s with
  | none => none
  | some r1 =>
      let ds := r1.takeWhile Char.isDigit
      let r2 := r1.dropWhile Char.isDigit
      if ds.isEmpty then none else
      let optR : Bool × List Char :=
        match dropLit "optional".toList r2 with
        | some r => (true, r)
        | none => (false, r2)
      match dropLit "-WindowsNoEditor".toList optR.2 with
      | none => none
      | some r4 =>
          match r4 with
          | '.' :: _ =>
              if r4 = ".pak".toList then some (digitsVal ds, optR.1, none)
              else none
          | '_' :: r5 =>
              let ps := r5.takeWhile Char.isDigit
              let r6 := r5.dropWhile Char.isDigit
              if ps.isEmpty then none
              else if r6 = "_P.pak".toList then
                some (digitsVal ds, optR.1, some (digitsVal ps))
              else none
          | _ => none

/-- The suffix of `s` after the last `/` or `\` (the whole string when no
separator occurs); the part the `dir_prefix` group does not capture. -/
def afterLastSep (s : List Char) : List Char :=
  (s.reverse.takeWhile (fun c => !(c == '/' || c == '\\'))).reverse

/-- `unpack_wl.py`'s `re_pak.match`: the filename may carry a directory
part. -/
def parsePakName (s : String) : Option (Nat × Bool × Option Nat) :=
  parsePakCore (afterLastSep s.toList)

/-- The fields `PakFile.__init__` stores (`unpack_wl.py` lines 225-237).
`paknum` is a Python float (`datagroup`, plus `0.5` when `optional`
matched), modelled as a rational; `patchnum` is the parsed integer or
`-1`. -/
structure PakFile where
  paknum : ℚ
  patchnum : ℤ
  deriving DecidableEq, Repr

/-- Field computation of `PakFile.__init__` from the captured groups. -/
def initFields (dg : Nat) (opt : Bool) (patch : Option Nat) : PakFile :=
  { paknum := (dg : ℚ) + (if opt then 1/2 else 0)
    patchnum := match patch with
      | some p => (p : ℤ)
      | none => -1 }

/-- `PakFile(filename)`: parse, or fail (`RuntimeError`) when the regex does
not match. -/
def mkPakFile (s : String) : Option PakFile :=
  (parsePakName s).map fun g => initFields g.1 g.2.1 g.2.2

/-- `PakFile.audio_nums` (line 202): `{2, 3, 48, 49, 50, 51, 52, 53}`, a set
of Python ints, against which the float `paknum` is tested by numeric
equality. -/
def audio_nums : List ℚ := [2, 3, 48, 49, 50, 51, 52, 53]

/-- `PakFile.is_audio_only` (lines 240-245): `self.paknum in self.audio_nums`. -/
def is_audio_only (pf : PakFile) : Bool := decide (pf.paknum ∈ audio_nums)

/-- `PakFile.__lt__` (line 362, identically `paksort.py` line 55):
`(self.paknum, self.patchnum) < (other.paknum, other.patchnum)`, Python's
lexicographic tuple comparison. -/
def pakLt (a b : PakFile) : Prop :=
  a.paknum < b.paknum ∨ (a.paknum = b.paknum ∧ a.patchnum < b.patchnum)

instance (a b : PakFile) : Decidable (pakLt a b) := by
  unfold pakLt; infer_instance

/-- The fields `paksort.py`'s `PakFile.__init__` stores (lines 36-53): same
`paknum`, but `patchnum` is the parsed patch number plus one, or `0` when
the patch group is absent; `order_num = paknum*10000 + patchnum`. -/
structure SortPakFile where
  paknum : ℚ
  patchnum : ℤ
  order_num : ℚ
  deriving DecidableEq, Repr

/-- Field computation of `paksort.py`'s `PakFile.__init__`. -/
def paksortInitFields (dg : Nat) (opt : Bool) (patch : Option Nat) :
    SortPakFile :=
  let pn : ℚ := (dg : ℚ) + (if opt then 1/2 else 0)
  let pt : ℤ := match patch with
    | some p => (p : ℤ) + 1
    | none => 0
  { paknum := pn, patchnum := pt, order_num := pn * 10000 + (pt : ℚ) }

/-- `paksort.py`'s `PakFile(filename)`: its regex has no directory-prefix
group, so the whole name must match the core grammar. -/
def paksortMk (s : String) : Option SortPakFile :=
  (parsePakCore s.toList).map fun g => paksortInitFields g.1 g.2.1 g.2.2

/-! ## Case fixes

`CaseFix` (`unpack_wl.py` lines 147-173) rewrites via `re.sub` with an
`^...$`-anchored pattern built from its literal parts (the hardcoded
instances contain no regex metacharacters), so at most one replacement
happens, at the whole string. -/

structure CaseFix where
  dir_name : List Char
  from_name : List Char
  to_name : List Char
  directory : Bool

/-- `CaseFix.apply`: for a directory rule the pattern is
`^<dir>/<from>/(?P<remaining>.*)$`; for a file rule it is
`^<dir>/<from>\.(?P<ext>\w+)$`.  Unmatched filenames pass through. -/
def CaseFix.apply (cf : CaseFix) (filename : List Char) : List Char :=
  if cf.directory then
    let pre := cf.dir_name ++ '/' :: cf.from_name ++ ['/']
    if pre.isPrefixOf filename then
      cf.dir_name ++ '/' :: cf.to_name ++ '/' :: filename.drop pre.length
    else filename
  else
    let pre := cf.dir_name ++ '/' :: cf.from_name ++ ['.']
    let ext := filename.drop pre.length
    if pre.isPrefixOf filename ∧ ext ≠ [] ∧ ext.all isWordChar then
      cf.dir_name ++ '/' :: cf.to_name ++ '.' :: ext
    else filename

/-- `PakFile.hardcoded_path_fixes` (lines 216-218). -/
def hardcoded_path_fixes : List CaseFix :=
  [{ dir_name := "Game/Maps/Dungeons/Boss/Climb".toList
     from_name := "D_Boss_Climb_P".toList
     to_name := "D_Boss_Climb_p".toList
     directory := false }]

/-- Lines 291-293: fold every fix, in declaration order, over the name. -/
def applyFixes (fixes : List CaseFix) (filename : List Char) : List Char :=
  fixes.foldl (fun fn cf => cf.apply fn) filename

/-! ## Path normalization (`get_filename_mapping`, lines 278-293) -/

/-- `PakFile.content_firstpart_overrides` (lines 208-211). -/
def content_firstpart_overrides : List (List Char × List Char) :=
  [("OakGame".toList, "Game".toList), ("Wwise".toList, "WwiseEditor".toList)]

/-- Lines 286-287: `if firstpart in overrides: firstpart = overrides[...]`. -/
def applyOverride (w : List Char) : List Char :=
  match content_firstpart_overrides.find? (fun p => p.1 == w) with
  | some p => p.2
  | none => w

/-- `re_normalize_plugins` (lines 191-193):
`^(?P<firstpart>\w+)/Plugins/(?P<lastpart>.*)\s*$`.  `\w+` is a maximal
word-character run (a shorter one is followed by a word character, not
`/`), so the match succeeds iff a nonempty word run is followed by the
literal `/Plugins/`; the greedy `(.*)` then captures the whole remainder
(the trailing `\s*` matches empty). -/
def pluginMatch (s : List Char) : Option (List Char) :=
  let w := s.takeWhile isWordChar
  let r := s.dropWhile isWordChar
  if w ≠ [] ∧ r.take 9 = "/Plugins/".toList then some (r.drop 9) else none

/-- `re_normalize_content` (lines 194-196) at a fixed junk length `k`:
the remainder `s.drop k` must start with a nonempty `\w+` run followed by
the literal `/Content/`; captures `(firstpart, lastpart)`. -/
def wordSplitAt (s : List Char) (k : Nat) : Option (List Char × List Char) :=
  let t := s.drop k
  let w := t.takeWhile isWordChar
  let r := t.dropWhile isWordChar
  if w ≠ [] ∧ r.take 9 = "/Content/".toList then some (w, r.drop 9) else none

/-- One candidate junk split of `(?P<junk>.*/)?`: position `0` (group
absent) or any position whose preceding character is `/`. -/
def tryAt (s : List Char) (k : Nat) : Option (List Char × List Char) :=
  if k = 0 ∨ s.get? (k - 1) = some '/' then wordSplitAt s k else none

/-- The greedy optional junk group tries the longest candidate first:
positions `n, n-1, ..., 1`, then `0` (group absent). -/
def searchDown (s : List Char) : Nat → Option (List Char × List Char)
  | 0 => tryAt s 0
  | k + 1 =>
      match tryAt s (k + 1) with
      | some r => some r
      | none => searchDown s k

/-- `re_normalize_content.match`:
`^(?P<junk>.*/)?(?P<firstpart>\w+)/Content/(?P<lastpart>.*)\s*$`. -/
def contentMatch (s : List Char) : Option (List Char × List Char) :=
  searchDown s s.length

/-- Lines 279-280: `if pluginmatch := ...: real_filename = lastpart`. -/
def pluginStep (s : List Char) : List Char :=
  match pluginMatch s with
  | some last => last
  | none => s

/-- Lines 281-289: a separate `if` (not `elif`), applied to the result of
the plugin step; rewrites to `<override firstpart>/<lastpart>`. -/
def contentStep (s : List Char) : List Char :=
  match contentMatch s with
  | some (w, last) => applyOverride w ++ '/' :: last
  | none => s

/-- The whole filename massaging of lines 278-293, as a function of
`real_filename = mountpoint + filename`. -/
def normalizeRealFilename (s : List Char) : List Char :=
  applyFixes hardcoded_path_fixes (contentStep (pluginStep s))

/-! ## The listing-output scanner (`get_filename_mapping`, lines 260-297) -/

/-- `re_unpack_mount.search` (lines 185-187): the captured mount point is
everything after the first `Display: Mount point ` to the end of the line
(greedy `.*$`; lines are modelled without their trailing newline). -/
def mountMatch (line : List Char) : Option (List Char) :=
  (findLit "Display: Mount point ".toList line).map fun i =>
    line.drop (i + 21)

/-- `re_unpack_file.search` (lines 188-190): `Display: \"(?P<filename>.*)\" offset`.
The earliest possible start is the first `Display: "`; the greedy `(.*)`
extends to the last following `" offset` (if none follows the first start,
none follows any later start either, and the search fails). -/
def fileMatch (line : List Char) : Option (List Char) :=
  match findLit "Display: \"".toList line with
  | none => none
  | some i =>
      let after := line.drop (i + 10)
      match findLastLit "\" offset".toList after with
      | none => none
      | some j => some (after.take j)

/-- Python-dict insertion (line 295): updating an existing key keeps its
position, a new key is appended. -/
def dictInsert (m : List (List Char × List Char)) (k v : List Char) :
    List (List Char × List Char) :=
  if m.any (fun p => p.1 == k) then
    m.map (fun p => if p.1 == k then (k, v) else p)
  else m ++ [(k, v)]

/-- The scanning loop of lines 262-295 over the subprocess's output lines.
The mount state starts unassigned; in Python a file line seen while it is
unassigned raises (`UnboundLocalError` at the `mountpoint is None` test,
whose explicit `RuntimeError` branch is otherwise unreachable) — both
failure paths are the single error case here. -/
def scanLines : List (List Char) → Option (List Char) →
    List (List Char × List Char) → Except String (List (List Char × List Char))
  | [], _, acc => .ok acc
  | line :: rest, mount, acc =>
      match mountMatch line with
      | some mp =>
          -- lines 264-270: strip the `../../../` relative part, or treat a
          -- bare `/` mount as empty
          let mp2 := if "../../../".toList.isPrefixOf mp then mp.drop 9
            else if mp = "/".toList then [] else mp
          scanLines rest (some mp2) acc
      | none =>
          match fileMatch line with
          | some fn =>
              match mount with
              | none => .error "Found filename without knowing prefix"
              | some mp =>
                  scanLines rest (some mp)
                    (dictInsert acc fn (normalizeRealFilename (mp ++ fn)))
          | none => scanLines rest mount acc

/-- `PakFile.get_filename_mapping`, as a function of the tool's output
lines: the raw-name → in-game-name dictionary, or the failure of a file
line with no preceding mount line. -/
def get_filename_mapping (lines : List (List Char)) :
    Except String (List (List Char × List Char)) :=
  scanLines lines none []

/-! ## The extraction stream checker (`PakFile.extract`, lines 299-360) -/

/-- The two `RuntimeError`s `extract` can raise while consuming the stream
and after it ends. -/
inductive ExtractErr where
  | unexpected (filename : List Char)
  | countMismatch (expected found : Nat)
  deriving DecidableEq, Repr

/-- `re_extract.search` (lines 197-199): `Display: Extracted \"(?P<filename>.*?)\" to `.
The lazy `(.*?)` stops at the first `" to ` after the first
`Display: Extracted \"`. -/
def matchExtractLine (line : List Char) : Option (List Char) :=
  match findLit "Display: Extracted \"".toList line with
  | none => none
  | some i =>
      let after := line.drop (i + 20)
      match findLit "\" to ".toList after with
      | none => none
      | some j => some (after.take j)

/-- Line 328: `total_files = len(expected_filenames) if expected_filenames
else None` — an empty collection is falsy and yields `None`, exactly like
passing no collection at all. -/
def totalFiles (expected : Option (List (List Char))) : Option Nat :=
  match expected with
  | some xs => if xs.isEmpty then none else some xs.length
  | none => none

/-- The line loop of lines 332-351: count confirmation lines, failing on a
confirmed filename outside a truthy (non-empty) expected collection.  The
progress printing of lines 340-349 has no effect on the result and is
omitted. -/
def extractLoop (expected : Option (List (List Char))) :
    List (List Char) → Nat → Except ExtractErr Nat
  | [], count => .ok count
  | line :: rest, count =>
      match matchExtractLine line with
      | none => extractLoop expected rest count
      | some fn =>
          -- line 335: `if expected_filenames and filename not in expected_filenames`
          match expected with
          | some xs =>
              if xs ≠ [] ∧ fn ∉ xs then .error (.unexpected fn)
              else extractLoop expected rest (count + 1)
          | none => extractLoop expected rest (count + 1)

/-- `PakFile.extract` as a function of the expected collection and the
tool's output lines: the number of confirmed extractions, or the raised
error.  Lines 353-358: `if total_files:` guards the final count check. -/
def extractRun (expected : Option (List (List Char)))
    (lines : List (List Char)) : Except ExtractErr Nat :=
  match extractLoop expected lines 0 with
  | .error e => .error e
  | .ok count =>
      match totalFiles expected with
      | some n => if count ≠ n then .error (.countMismatch n count) else .ok count
      | none => .ok count

/-- Whether a run ended in the count-mismatch `RuntimeError` of line 356. -/
def isCountMismatch (r : Except ExtractErr Nat) : Bool :=
  match r with
  | .error (.countMismatch _ _) => true
  | _ => false

/-- The confirmation lines a stream contains. -/
def confirmedNames (lines : List (List Char)) : List (List Char) :=
  lines.filterMap matchExtractLine

/-! ## Filesystem model for the merge step

Directories are finite, ordered lists of named entries (the order models
`os.listdir` / insertion order); files carry their contents.  Paths are
lists of segments (the source's strings split on the separator). -/

inductive FSEntry where
  | file (contents : String) : FSEntry
  | dir (children : List (String × FSEntry)) : FSEntry

/-- Directory-entry lookup by name. -/
def lookupChild (cs : List (String × FSEntry)) (n : String) : Option FSEntry :=
  (cs.find? (fun p => p.1 == n)).map (·.2)

/-- Replace the entry named `n` (which must exist) by `e`. -/
def setChild (cs : List (String × FSEntry)) (n : String) (e : FSEntry) :
    List (String × FSEntry) :=
  cs.map (fun p => if p.1 == n then (n, e) else p)

mutual

/-- `delete_empty_dirs(folder)` (`unpack_wl.py` lines 441-462) with the
default `delete_root=True`: recursively prune empty subdirectories; when
nothing remains the folder itself is removed (`none`, the function's
`True`), else the pruned folder survives (`some`, the function's
`False`). -/
def deleteEmptyDirs : FSEntry → Option FSEntry
  | .file c => some (.file c)
  | .dir children =>
      let pruned := deleteEmptyDirsChildren children
      if pruned.isEmpty then none else some (.dir pruned)

/-- The loop of lines 447-456: recurse into each subdirectory entry,
dropping the ones whose recursive call deleted them; plain files remain. -/
def deleteEmptyDirsChildren :
    List (String × FSEntry) → List (String × FSEntry)
  | [] => []
  | (n, .file c) :: rest => (n, .file c) :: deleteEmptyDirsChildren rest
  | (n, .dir cs) :: rest =>
      match deleteEmptyDirs (.dir cs) with
      | none => deleteEmptyDirsChildren rest
      | some e => (n, e) :: deleteEmptyDirsChildren rest

end

/-- `os.path.exists` / entry retrieval at a path. -/
def findEntry : FSEntry → List String → Option FSEntry
  | e, [] => some e
  | .file _, _ :: _ => none
  | .dir cs, n :: rest =>
      match lookupChild cs n with
      | some e => findEntry e rest
      | none => none

/-- Removal of the entry at a (nonempty) path — `shutil.move`'s source
disappearing; ancestor directories stay behind for `delete_empty_dirs` to
reclaim. -/
def removeEntry : FSEntry → List String → FSEntry
  | t, [] => t
  | .file c, _ :: _ => .file c
  | .dir cs, [n] => .dir (cs.filter (fun p => !(p.1 == n)))
  | .dir cs, n :: m :: rest =>
      .dir (cs.map (fun p =>
        if p.1 == n then (p.1, removeEntry p.2 (m :: rest)) else p))
termination_by _ p => p.length

/-- Lines 487-489: `os.makedirs(dirname(dst), exist_ok=True)` followed by
`shutil.move(src, dst)`.  Intermediate directories are created on demand; a
plain file in the way makes `makedirs` raise (`none`).  At the final
segment, an existing file is replaced (`os.rename`); an existing directory
receives the moved entry inside itself under the source's basename
`srcBase`, failing (`shutil.Error`) if that name is already taken. -/
def placeEntry : FSEntry → List String → String → FSEntry → Option FSEntry
  | .file _, _, _, _ => none
  | .dir _, [], _, _ => none
  | .dir cs, [n], srcBase, moved =>
      match lookupChild cs n with
      | none => some (.dir (cs ++ [(n, moved)]))
      | some (.file _) => some (.dir (setChild cs n moved))
      | some (.dir ds) =>
          match lookupChild ds srcBase with
          | some _ => none
          | none => some (.dir (setChild cs n (.dir (ds ++ [(srcBase, moved)]))))
  | .dir cs, n :: m :: rest, srcBase, moved =>
      match lookupChild cs n with
      | none =>
          match placeEntry (.dir []) (m :: rest) srcBase moved with
          | some sub => some (.dir (cs ++ [(n, sub)]))
          | none => none
      | some child =>
          match placeEntry child (m :: rest) srcBase moved with
          | some sub => some (.dir (setChild cs n sub))
          | none => none
termination_by _ p _ _ => p.length

/-- The last segment of a path (`os.path.basename` of the source). -/
def lastSeg (p : List String) : String :=
  match p.getLast? with
  | some b => b
  | none => ""

/-- The move loop of `normalize_pak_files` (lines 477-489) over the name
mapping's `(raw, final)` path pairs.  `temp = none` models a staging root
that does not exist on disk, in which case every `os.path.exists` test is
false and nothing happens. -/
def movePakContents :
    List (List String × List String) → Option FSEntry → FSEntry →
    Except String (Option FSEntry × FSEntry)
  | [], temp, fin => .ok (temp, fin)
  | (raw, dest) :: rest, temp, fin =>
      match temp with
      | none => movePakContents rest none fin
      | some t =>
          match findEntry t raw with
          | none => movePakContents rest (some t) fin
          | some moved =>
              match placeEntry fin dest (lastSeg raw) moved with
              | none => .error "filesystem error during move"
              | some fin2 => movePakContents rest (some (removeEntry t raw)) fin2

/-- `normalize_pak_files(temp_folder, final_folder, filename_mapping)`
(lines 465-492): perform the moves, then `delete_empty_dirs(temp_folder)`;
if the staging root survives the cleanup, raise `RuntimeError`; if it does
not exist at all, `os.listdir` inside `delete_empty_dirs` raises
`FileNotFoundError`.  Returns the staging root's state (`none` = removed)
and the final tree. -/
def normalize_pak_files (mapping : List (List String × List String))
    (temp : Option FSEntry) (fin : FSEntry) :
    Except String (Option FSEntry × FSEntry) :=
  match movePakContents mapping temp fin with
  | .error e => .error e
  | .ok (temp2, fin2) =>
      match temp2 with
      | none => .error "FileNotFoundError"
      | some t =>
          match deleteEmptyDirs t with
          | none => .ok (none, fin2)
          | some _ => .error "Could not delete temporary folder"

/-! ## Theorems -/

/-- No natural number plus one half is a natural number (as rationals). -/
theorem nat_add_half_ne_nat (d k : Nat) : (d : ℚ) + 1/2 ≠ (k : ℚ) := by
  intro h
  have h2 : ((2 * d + 1 : ℕ) : ℚ) = ((2 * k : ℕ) : ℚ) := by push_cast; linarith
  have h3 : 2 * d + 1 = 2 * k := Nat.cast_injective h2
  omega

/-- An optional archive's `paknum` (a half-integer) never lies in the
integer set `audio_nums`. -/
theorem half_not_mem_audio (d : Nat) : (d : ℚ) + 1/2 ∉ audio_nums := by
  intro hmem
  simp only [audio_nums, List.mem_cons, List.not_mem_nil, or_false] at hmem
  rcases hmem with h | h | h | h | h | h | h | h
  · exact nat_add_half_ne_nat d 2 (by exact_mod_cast h)
  · exact nat_add_half_ne_nat d 3 (by exact_mod_cast h)
  · exact nat_add_half_ne_nat d 48 (by exact_mod_cast h)
  · exact nat_add_half_ne_nat d 49 (by exact_mod_cast h)
  · exact nat_add_half_ne_nat d 50 (by exact_mod_cast h)
  · exact nat_add_half_ne_nat d 51 (by exact_mod_cast h)
  · exact nat_add_half_ne_nat d 52 (by exact_mod_cast h)
  · exact nat_add_half_ne_nat d 53 (by exact_mod_cast h)

/-- C3 counterexample: `pakchunk2optional-WindowsNoEditor.pak` parses with
datagroup 2, which belongs to the known audio set, yet `is_audio_only`
returns `False` because the stored `paknum` is `2.5`. -/
theorem audio_only_optional_cex :
    parsePakName "pakchunk2optional-WindowsNoEditor.pak"
        = some (2, true, none) ∧
    (2 : ℚ) ∈ audio_nums ∧
    (mkPakFile "pakchunk2optional-WindowsNoEditor.pak").map is_audio_only
        = some false := by
  refine ⟨rfl, by simp [audio_nums], ?_⟩
  have hp : parsePakName "pakchunk2optional-WindowsNoEditor.pak"
      = some (2, true, none) := rfl
  have hm := half_not_mem_audio 2
  simp only [mkPakFile, hp, Option.map_some', is_audio_only, initFields,
    if_true, Option.some.injEq]
  simpa using hm

/-- C3 (amended): for every successfully parsed archive filename,
`is_audio_only` returns `True` iff the archive is **not** optional and its
datagroup belongs to the known audio set; an optional archive is never
classified audio-only even when its datagroup is in the set. -/
theorem is_audio_only_iff (s : String) (dg : Nat) (opt : Bool)
    (patch : Option Nat) (hp : parsePakName s = some (dg, opt, patch)) :
    mkPakFile s = some (initFields dg opt patch) ∧
    (is_audio_only (initFields dg opt patch) = true ↔
      opt = false ∧ (dg : ℚ) ∈ audio_nums) := by
  refine ⟨by simp [mkPakFile, hp], ?_⟩
  cases opt with
  | false => simp [is_audio_only, initFields]
  | true =>
      simp only [is_audio_only, initFields, if_true, decide_eq_true_eq]
      constructor
      · intro h; exact absurd h (half_not_mem_audio dg)
      · rintro ⟨h, -⟩; cases h

/-- C3 witness: the amended statement at
`pakchunk2optional-WindowsNoEditor.pak`. -/
theorem is_audio_only_iff_witness :
    mkPakFile "pakchunk2optional-WindowsNoEditor.pak"
        = some (initFields 2 true none) ∧
    (is_audio_only (initFields 2 true none) = true ↔
      true = false ∧ (2 : ℚ) ∈ audio_nums) :=
  is_audio_only_iff "pakchunk2optional-WindowsNoEditor.pak" 2 true none rfl

/-- C4: archive ordering by the key `(paknum, patchnum)` compared
lexicographically is transitive, and at equal datagroup and equal patch
number the `optional` archive sorts strictly after the non-optional one. -/
theorem pak_order_trans_and_optional :
    (∀ a b c : PakFile, pakLt a b → pakLt b c → pakLt a c) ∧
    (∀ (dg : Nat) (patch : Option Nat),
      pakLt (initFields dg false patch) (initFields dg true patch) ∧
      ¬ pakLt (initFields dg true patch) (initFields dg false patch)) := by
  constructor
  · rintro a b c (h1 | ⟨e1, h1⟩) (h2 | ⟨e2, h2⟩)
    · exact Or.inl (h1.trans h2)
    · exact Or.inl (e2 ▸ h1)
    · exact Or.inl (e1 ▸ h2)
    · exact Or.inr ⟨e1.trans e2, h1.trans h2⟩
  · intro dg patch
    constructor
    · exact Or.inl (by simp only [initFields]; norm_num)
    · rintro (h | ⟨e, -⟩)
      · simp only [initFields] at h
        norm_num at h
      · simp only [initFields] at e
        norm_num at e

/-- C4 witness: transitivity applied across
`pakchunk1 < pakchunk1optional < pakchunk2_3_P`, plus the optional-after
instance at datagroup 1. -/
theorem pak_order_witness :
    pakLt (initFields 1 false none) (initFields 2 false (some 3)) ∧
    pakLt (initFields 1 false none) (initFields 1 true none) := by
  constructor
  · exact pak_order_trans_and_optional.1 _ (initFields 1 true none) _
      ((pak_order_trans_and_optional.2 1 none).1)
      (Or.inl (by simp only [initFields]; norm_num))
  · exact (pak_order_trans_and_optional.2 1 none).1

/-- C5 counterexample: in `paksort.py`, the filename
`pakchunk1-WindowsNoEditor.pak` parses successfully with no patch suffix,
yet the descriptor's patch-number field is `0`, not `-1`. -/
theorem paksort_patchnum_cex :
    parsePakCore "pakchunk1-WindowsNoEditor.pak".toList
        = some (1, false, none) ∧
    (paksortMk "pakchunk1-WindowsNoEditor.pak").map SortPakFile.patchnum
        = some 0 ∧
    (0 : ℤ) ≠ -1 := ⟨rfl, rfl, by decide⟩

/-- C5 (amended): a successfully parsed filename with no patch-number
suffix yields `patchnum = -1` in `unpack_wl.py`'s descriptor, while
`paksort.py`'s descriptor assigns `0` instead (and `patch + 1` when a
suffix is present), an order-isomorphic encoding. -/
theorem patchnum_of_no_suffix :
    (∀ (s : String) (dg : Nat) (opt : Bool),
      parsePakName s = some (dg, opt, none) →
      (mkPakFile s).map PakFile.patchnum = some (-1)) ∧
    (∀ (s : String) (dg : Nat) (opt : Bool),
      parsePakCore s.toList = some (dg, opt, none) →
      (paksortMk s).map SortPakFile.patchnum = some 0) := by
  constructor
  · intro s dg opt h
    rw [mkPakFile, h]
    rfl
  · intro s dg opt h
    rw [paksortMk, h]
    rfl

/-- C5 witness: both parts at `pakchunk1-WindowsNoEditor.pak`. -/
theorem patchnum_of_no_suffix_witness :
    (mkPakFile "pakchunk1-WindowsNoEditor.pak").map PakFile.patchnum
        = some (-1) ∧
    (paksortMk "pakchunk1-WindowsNoEditor.pak").map SortPakFile.patchnum
        = some 0 :=
  ⟨patchnum_of_no_suffix.1 "pakchunk1-WindowsNoEditor.pak" 1 false rfl,
   patchnum_of_no_suffix.2 "pakchunk1-WindowsNoEditor.pak" 1 false rfl⟩

/-- C2 counterexample: the raw path
`MyPlugin/Plugins/Stuff/Content/Foo.uasset` matches the plugin-wrapped
shape with `<rest> = Stuff/Content/Foo.uasset`, but normalization yields
`Stuff/Foo.uasset`, not `<rest>`: the content-wrapped rewrite of step 2 is
additionally applied (the case fixes leave `<rest>` unchanged, so they do
not account for the difference). -/
theorem plugin_content_exclusive_cex :
    pluginMatch "MyPlugin/Plugins/Stuff/Content/Foo.uasset".toList
        = some "Stuff/Content/Foo.uasset".toList ∧
    normalizeRealFilename "MyPlugin/Plugins/Stuff/Content/Foo.uasset".toList
        = "Stuff/Foo.uasset".toList ∧
    applyFixes hardcoded_path_fixes "Stuff/Content/Foo.uasset".toList
        = "Stuff/Content/Foo.uasset".toList ∧
    "Stuff/Foo.uasset".toList ≠ "Stuff/Content/Foo.uasset".toList := by
  refine ⟨rfl, rfl, rfl, by decide⟩

/-- C2 (amended): the two rewrites are applied in sequence, not mutually
exclusively: a plugin-wrapped path is first stripped to `<rest>`, and the
content-wrapped rewrite is then still attempted on `<rest>`; the result is
`<rest>` (after case fixes) exactly when `<rest>` does not itself match the
content-wrapped shape. -/
theorem plugin_then_content (s last : List Char)
    (hp : pluginMatch s = some last) :
    normalizeRealFilename s
        = applyFixes hardcoded_path_fixes (contentStep last) ∧
    (contentMatch last = none →
      normalizeRealFilename s = applyFixes hardcoded_path_fixes last) := by
  have h1 : pluginStep s = last := by simp [pluginStep, hp]
  exact ⟨by simp [normalizeRealFilename, h1],
    fun hc => by simp [normalizeRealFilename, h1, contentStep, hc]⟩

/-- C2 witness: the amended statement at
`SomePlugin/Plugins/Weapons/Gun.uasset`, whose `<rest>` matches no
content-wrapped shape. -/
theorem plugin_then_content_witness :
    normalizeRealFilename "SomePlugin/Plugins/Weapons/Gun.uasset".toList
        = applyFixes hardcoded_path_fixes "Weapons/Gun.uasset".toList :=
  (plugin_then_content "SomePlugin/Plugins/Weapons/Gun.uasset".toList
    "Weapons/Gun.uasset".toList rfl).2 rfl

/-- C8: normalizing the raw path `OakGame/Content/Foo/Bar.uasset` yields
exactly `Game/Foo/Bar.uasset`: the content-wrapped rewrite applies with
root name `OakGame`, and the override table maps `OakGame` to `Game`. -/
theorem oakgame_normalization :
    normalizeRealFilename "OakGame/Content/Foo/Bar.uasset".toList
        = "Game/Foo/Bar.uasset".toList ∧
    contentMatch "OakGame/Content/Foo/Bar.uasset".toList
        = some ("OakGame".toList, "Foo/Bar.uasset".toList) ∧
    applyOverride "OakGame".toList = "Game".toList :=
  ⟨rfl, rfl, rfl⟩

/-- With no expected collection, the line loop only counts confirmation
lines. -/
theorem extractLoop_none_eq (lines : List (List Char)) (c : Nat) :
    extractLoop none lines c = .ok (c + (confirmedNames lines).length) := by
  induction lines generalizing c with
  | nil => simp [extractLoop, confirmedNames]
  | cons line rest ih =>
      rw [extractLoop]
      cases hm : matchExtractLine line with
      | none => rw [ih]; simp [confirmedNames, List.filterMap_cons, hm]
      | some fn =>
          simp only [confirmedNames, List.filterMap_cons, hm, List.length_cons,
            ih, Except.ok.injEq]
          omega

/-- An empty expected collection drives the line loop exactly like no
collection at all. -/
theorem extractLoop_empty_eq (lines : List (List Char)) (c : Nat) :
    extractLoop (some []) lines c = extractLoop none lines c := by
  induction lines generalizing c with
  | nil => rfl
  | cons line rest ih =>
      rw [extractLoop, extractLoop]
      cases hm : matchExtractLine line with
      | none => exact ih c
      | some fn => simp only [ne_eq, not_true_eq_false, false_and, if_false]
                   exact ih (c + 1)

/-- When every confirmed filename is expected, the loop never raises and
just counts. -/
theorem extractLoop_all_expected (xs : List (List Char))
    (lines : List (List Char)) (c : Nat)
    (hall : ∀ fn ∈ confirmedNames lines, fn ∈ xs) :
    extractLoop (some xs) lines c = .ok (c + (confirmedNames lines).length) := by
  induction lines generalizing c with
  | nil => simp [extractLoop, confirmedNames]
  | cons line rest ih =>
      rw [extractLoop]
      cases hm : matchExtractLine line with
      | none =>
          rw [ih c (fun fn hfn => hall fn (by
            simp [confirmedNames, List.filterMap_cons, hm] at hfn ⊢
            exact hfn))]
          simp [confirmedNames, List.filterMap_cons, hm]
      | some fn =>
          have hfn : fn ∈ xs := hall fn (by
            simp [confirmedNames, List.filterMap_cons, hm])
          have hrest : ∀ g ∈ confirmedNames rest, g ∈ xs := fun g hg =>
            hall g (by simp [confirmedNames, List.filterMap_cons, hm] at hg ⊢
                       exact Or.inr hg)
          simp only [hfn, not_true_eq_false, and_false, if_false]
          rw [ih (c + 1) hrest]
          simp only [confirmedNames, List.filterMap_cons, hm, List.length_cons,
            Except.ok.injEq]
          omega

/-- C10: an empty (but supplied) expected collection behaves exactly like
no expected collection: no filename is rejected, no final count check is
performed, and extraction succeeds with the number of confirmation lines
regardless of what it is. -/
theorem extract_empty_expected_like_none (lines : List (List Char)) :
    extractRun (some []) lines = extractRun none lines ∧
    extractRun (some []) lines = .ok (confirmedNames lines).length := by
  have h1 := extractLoop_empty_eq lines 0
  have h2 := extractLoop_none_eq lines 0
  constructor
  · rw [extractRun, extractRun, h1]
    have ht : totalFiles (some ([] : List (List Char))) = totalFiles none := rfl
    rw [ht]
  · rw [extractRun, h1, h2]
    simp [totalFiles]

/-- C6 counterexample: an empty expected collection is supplied, one file
is confirmed — the confirmed count (1) differs from the expected set's size
(0), yet extraction succeeds with no count-mismatch error. -/
theorem count_mismatch_empty_cex :
    extractRun (some [])
        ["LogPakFile: Display: Extracted \"a.uasset\" to /x/a.uasset".toList]
      = .ok 1 ∧
    (1 : Nat) ≠ ([] : List (List Char)).length := ⟨rfl, by decide⟩

/-- C6 (amended): given a **non-empty** expected set (an empty supplied
collection is falsy and disables both checks), and provided every
confirmation line names an expected file (otherwise extraction already
fails mid-stream with an unexpected-filename error), extraction fails with
a count-mismatch error iff the number of confirmation lines differs from
the size of the expected set — in particular 5 confirmations against 6
expected filenames raise it. -/
theorem count_mismatch_iff (xs : List (List Char)) (lines : List (List Char))
    (hne : xs ≠ [])
    (hall : ∀ fn ∈ confirmedNames lines, fn ∈ xs) :
    isCountMismatch (extractRun (some xs) lines) = true ↔
      (confirmedNames lines).length ≠ xs.length := by
  have hl := extractLoop_all_expected xs lines 0 hall
  have ht : totalFiles (some xs) = some xs.length := by
    simp [totalFiles, hne]
  rw [extractRun, hl]
  simp only [Nat.zero_add, ht]
  by_cases hc : (confirmedNames lines).length = xs.length
  · simp [hc, isCountMismatch]
  · simp [hc, isCountMismatch]

/-- C6 witness: the amended statement at 6 expected filenames and 5
confirmation lines; the mismatch holds since 5 ≠ 6. -/
theorem count_mismatch_iff_witness :
    isCountMismatch (extractRun
      (some ["a".toList, "b".toList, "c".toList,
             "d".toList, "e".toList, "f".toList])
      ["Display: Extracted \"a\" to /x/a".toList,
       "Display: Extracted \"b\" to /x/b".toList,
       "Display: Extracted \"c\" to /x/c".toList,
       "Display: Extracted \"d\" to /x/d".toList,
       "Display: Extracted \"e\" to /x/e".toList]) = true ↔
    (confirmedNames
      ["Display: Extracted \"a\" to /x/a".toList,
       "Display: Extracted \"b\" to /x/b".toList,
       "Display: Extracted \"c\" to /x/c".toList,
       "Display: Extracted \"d\" to /x/d".toList,
       "Display: Extracted \"e\" to /x/e".toList]).length ≠ 6 :=
  count_mismatch_iff _ _ (by decide) (by decide)

/-- Scanning any run of non-mount lines that begins, after some non-mount
noise, with a file line, while the mount state is still unassigned, ends in
the mount-state failure. -/
theorem scanLines_no_mount_err (pre : List (List Char)) (l : List Char)
    (rest : List (List Char)) (acc : List (List Char × List Char))
    (hpre : ∀ x ∈ pre, mountMatch x = none)
    (hl1 : mountMatch l = none) (hl2 : (fileMatch l).isSome = true) :
    scanLines (pre ++ l :: rest) none acc
      = .error "Found filename without knowing prefix" := by
  induction pre generalizing acc with
  | nil =>
      obtain ⟨fn, hfn⟩ := Option.isSome_iff_exists.mp hl2
      simp only [List.nil_append]
      rw [scanLines, hl1, hfn]
  | cons p pre' ih =>
      have hp : mountMatch p = none := hpre p (List.mem_cons_self p pre')
      have hpre' : ∀ x ∈ pre', mountMatch x = none := fun x hx =>
        hpre x (List.mem_cons_of_mem p hx)
      simp only [List.cons_append]
      rw [scanLines, hp]
      cases hf : fileMatch p with
      | some fn => rfl
      | none => exact ih acc hpre'

/-- C7: if the listing scanner sees a file-announcement line while no
mount-point line has yet been seen, the listing operation fails with an
error (in Python, an `UnboundLocalError` at the dead `mountpoint is None`
check) and produces no mapping entry for that file. -/
theorem file_before_mount_fails (pre : List (List Char)) (l : List Char)
    (rest : List (List Char))
    (hpre : ∀ x ∈ pre, mountMatch x = none)
    (hl1 : mountMatch l = none) (hl2 : (fileMatch l).isSome = true) :
    get_filename_mapping (pre ++ l :: rest)
      = .error "Found filename without knowing prefix" :=
  scanLines_no_mount_err pre l rest [] hpre hl1 hl2

/-- C7 witness: a single file line with no preceding mount line. -/
theorem file_before_mount_fails_witness :
    get_filename_mapping
        ["LogPakFile: Display: \"Foo.uasset\" offset: 123".toList]
      = .error "Found filename without knowing prefix" :=
  file_before_mount_fails []
    "LogPakFile: Display: \"Foo.uasset\" offset: 123".toList []
    (by simp) rfl rfl

/-- The descending junk search returns the hit at the greatest admissible
position: any strictly larger position up to the search start fails. -/
theorem searchDown_spec (s : List Char) :
    ∀ (n : Nat) (w rest : List Char), searchDown s n = some (w, rest) →
      ∃ k, k ≤ n ∧ tryAt s k = some (w, rest) ∧
        ∀ j, k < j → j ≤ n → tryAt s j = none := by
  intro n
  induction n with
  | zero =>
      intro w rest h
      exact ⟨0, Nat.le_refl 0, h, fun j hj1 hj2 => absurd (Nat.lt_of_lt_of_le hj1 hj2)
        (Nat.lt_irrefl 0)⟩
  | succ k ih =>
      intro w rest h
      rw [searchDown] at h
      cases htry : tryAt s (k + 1) with
      | some r =>
          rw [htry] at h
          cases h
          exact ⟨k + 1, Nat.le_refl _, htry, fun j hj1 hj2 =>
            absurd (Nat.lt_of_lt_of_le hj1 hj2) (Nat.lt_irrefl _)⟩
      | none =>
          rw [htry] at h
          obtain ⟨k0, hk0le, hk0, hmax⟩ := ih w rest h
          refine ⟨k0, Nat.le_succ_of_le hk0le, hk0, fun j hj1 hj2 => ?_⟩
          rcases Nat.eq_or_lt_of_le hj2 with hj | hj
          · rw [hj]; exact htry
          · exact hmax j hj1 (Nat.lt_succ_iff.mp hj)

/-- C9 (amended): when the content-wrapped shape matches, the raw path
splits as `<junk><rootName>/Content/<rest>` at the **greatest** junk length
admitting the shape: the junk prefix is empty or ends with `/`, the root
name is a nonempty run of word characters, and every strictly longer junk
prefix fails — so the split lands on the last `/Content/` occurrence whose
immediately preceding path segment is a nonempty word-character run, which
is an earlier occurrence (or no match at all) whenever the segment before
the final `/Content/` contains a non-word character. -/
theorem content_split_last (s w rest : List Char)
    (h : contentMatch s = some (w, rest)) :
    ∃ k, k ≤ s.length ∧ (k = 0 ∨ s.get? (k - 1) = some '/') ∧
      s.drop k = w ++ "/Content/".toList ++ rest ∧
      w ≠ [] ∧ w.all isWordChar = true ∧
      ∀ j, k < j → j ≤ s.length → tryAt s j = none := by
  obtain ⟨k, hkle, hk, hmax⟩ := searchDown_spec s s.length w rest h
  rw [tryAt] at hk
  by_cases hcond : k = 0 ∨ s.get? (k - 1) = some '/'
  · rw [if_pos hcond] at hk
    simp only [wordSplitAt] at hk
    by_cases hok : (s.drop k).takeWhile isWordChar ≠ [] ∧
        ((s.drop k).dropWhile isWordChar).take 9 = "/Content/".toList
    · rw [if_pos hok] at hk
      obtain ⟨hne, hlit⟩ := hok
      cases hk
      refine ⟨k, hkle, hcond, ?_, hne, ?_, hmax⟩
      · calc s.drop k
            = (s.drop k).takeWhile isWordChar ++ (s.drop k).dropWhile isWordChar :=
              (List.takeWhile_append_dropWhile isWordChar (s.drop k)).symm
          _ = (s.drop k).takeWhile isWordChar ++
                (((s.drop k).dropWhile isWordChar).take 9 ++
                 ((s.drop k).dropWhile isWordChar).drop 9) := by
              rw [List.take_append_drop]
          _ = (s.drop k).takeWhile isWordChar ++ "/Content/".toList ++
                ((s.drop k).dropWhile isWordChar).drop 9 := by
              rw [hlit, List.append_assoc]
      · exact List.all_eq_true.mpr fun c hc => List.mem_takeWhile_imp hc
    · rw [if_neg hok] at hk; cases hk
  · rw [if_neg hcond] at hk; cases hk

/-- C9 counterexample: `A/Content/B.x/Content/C` contains two `/Content/`
segments, but the segment before the final one (`B.x`) is not a pure word
run, so the rewrite splits at the **first** occurrence (root `A`), not the
last: the result is `A/B.x/Content/C`, not the `B.x/C` the claim
predicts. -/
theorem content_last_occurrence_cex :
    contentMatch "A/Content/B.x/Content/C".toList
        = some ("A".toList, "B.x/Content/C".toList) ∧
    normalizeRealFilename "A/Content/B.x/Content/C".toList
        = "A/B.x/Content/C".toList ∧
    "A/B.x/Content/C".toList ≠ "B.x/C".toList := ⟨rfl, rfl, by decide⟩

/-- C9 witness: the amended statement at `A/Content/B/Content/C`, where the
match is `junk = A/Content/`, root `B`, rest `C`. -/
theorem content_split_last_witness :
    ∃ k, k ≤ "A/Content/B/Content/C".toList.length ∧
      (k = 0 ∨ "A/Content/B/Content/C".toList.get? (k - 1) = some '/') ∧
      "A/Content/B/Content/C".toList.drop k
        = "B".toList ++ "/Content/".toList ++ "C".toList ∧
      "B".toList ≠ [] ∧ "B".toList.all isWordChar = true ∧
      ∀ j, k < j → j ≤ "A/Content/B/Content/C".toList.length →
        tryAt "A/Content/B/Content/C".toList j = none :=
  content_split_last "A/Content/B/Content/C".toList "B".toList "C".toList rfl

/-- When the staging root does not exist, every `os.path.exists` test in
the move loop is false and nothing at all happens. -/
theorem movePakContents_no_temp (mapping : List (List String × List String))
    (fin : FSEntry) : movePakContents mapping none fin = .ok (none, fin) := by
  induction mapping with
  | nil => rfl
  | cons p rest ih =>
      obtain ⟨raw, dest⟩ := p
      rw [movePakContents]
      exact ih

/-- When the staging root exists but is empty, no mapped raw path (all of
which are nonempty) exists on disk, so the move loop changes nothing. -/
theorem movePakContents_empty_temp (mapping : List (List String × List String))
    (fin : FSEntry) (h : ∀ p ∈ mapping, p.1 ≠ ([] : List String)) :
    movePakContents mapping (some (.dir [])) fin
      = .ok (some (.dir []), fin) := by
  induction mapping with
  | nil => rfl
  | cons p rest ih =>
      obtain ⟨raw, dest⟩ := p
      have hne : raw ≠ [] := h (raw, dest) (List.mem_cons_self _ _)
      obtain ⟨n, raw2, rfl⟩ : ∃ n raw2, raw = n :: raw2 := by
        cases raw with
        | nil => exact absurd rfl hne
        | cons a b => exact ⟨a, b, rfl⟩
      rw [movePakContents]
      have hf : findEntry (.dir []) (n :: raw2) = none := rfl
      rw [hf]
      exact ih fun q hq => h q (List.mem_cons_of_mem _ hq)

/-- C1 counterexample: on an existing, already-empty staging directory the
merge succeeds but **removes the staging root itself** (the state changes
from an empty directory to no directory), and the immediately following
second invocation raises an error (`os.listdir` on the now-missing staging
root), so the double invocation does not succeed both times without
changing state. -/
theorem merger_not_reentrant_cex :
    normalize_pak_files [] (some (.dir [])) (.dir []) = .ok (none, .dir []) ∧
    normalize_pak_files [] none (.dir []) = .error "FileNotFoundError" :=
  ⟨rfl, rfl⟩

/-- C1 (amended): for every name mapping (with nonempty raw paths), merging
from an existing, already-empty staging directory performs no moves and
raises no error, but deletes the staging root itself — it is a successful
drain, not a state-preserving no-op — and a second invocation in a row then
fails, because the staging root no longer exists (`FileNotFoundError` from
`os.listdir`); the merge is therefore not idempotent on a drained staging
directory. -/
theorem normalize_empty_staging (mapping : List (List String × List String))
    (fin : FSEntry) (h : ∀ p ∈ mapping, p.1 ≠ ([] : List String)) :
    normalize_pak_files mapping (some (.dir [])) fin = .ok (none, fin) ∧
    normalize_pak_files mapping none fin = .error "FileNotFoundError" := by
  constructor
  · rw [normalize_pak_files, movePakContents_empty_temp mapping fin h]
    rfl
  · rw [normalize_pak_files, movePakContents_no_temp]

/-- C1 witness: the amended statement at a one-entry mapping. -/
theorem normalize_empty_staging_witness :
    normalize_pak_files [(["f.uasset"], ["Game", "f.uasset"])]
        (some (.dir [])) (.dir []) = .ok (none, .dir []) ∧
    normalize_pak_files [(["f.uasset"], ["Game", "f.uasset"])]
        none (.dir []) = .error "FileNotFoundError" :=
  normalize_empty_staging [(["f.uasset"], ["Game", "f.uasset"])] (.dir [])
    (by simp)

end Wldata
